import Mathlib

/-!
Verification of the TOC-generation script `create_table_of_contents/create_toc.py`.

The script reads the outline (bookmark tree) of an existing PDF, renders a
table-of-contents page with FPDF, and merges it in front of the original
document.  We model the script's own logic shallowly:

* font metrics (`FPDF.get_string_width`) are modelled by a per-character
  width function `cw : Char → ℚ`; the width of a string is the sum of its
  characters' widths, which is how fpdf computes it for a fixed style;
* page coordinates are rationals; the cursor is threaded explicitly;
* the title render of `render_toc_item` is delegated to fpdf's `multi_cell`
  (external library): the model takes the cursor position after the title
  render as an input (`x_after_title`, `y_after_title`);
* the unbounded `while` loop accumulating the dot leader is modelled with
  explicit fuel and an `Option` result: `none` means the loop did not exit
  within the supplied fuel (with positive dot width we prove the chosen
  fuel always suffices, i.e. the loop terminates);
* the pypdf writer is modelled as a record of an ordered page list and an
  ordered list of registered named destinations.
-/

/-- A flattened bookmark record, as built by `extract_bookmarks`:
nesting depth, title text, and zero-based destination page index. -/
structure Bookmark where
  depth : ℕ
  title : String
  page : ℕ
deriving DecidableEq, Repr

/-- PyPDF's outline representation: a list whose items are either resolved
destinations or nested sub-lists (one level deeper). -/
inductive OItem where
  | dest (title : String) (page : ℕ) : OItem
  | sub (items : List OItem) : OItem

/-- `CreateTOC.extract_bookmarks`: recursively flatten the outline.  A nested
list is flattened at `depth + 1`; a destination becomes one record at the
current depth. -/
def extract_bookmarks : List OItem → ℕ → List Bookmark
  | [], _ => []
  | OItem.dest t p :: rest, depth =>
      { depth := depth, title := t, page := p } :: extract_bookmarks rest depth
  | OItem.sub l :: rest, depth =>
      extract_bookmarks l (depth + 1) ++ extract_bookmarks rest depth

/-- The bookmark list held by `CreateTOC.__init__` at rendering time:
flatten, drop the first `skip_bookmarks` entries, then sort by ascending
page (Python's stable `list.sort` with key `page`, modelled by the stable
`List.mergeSort`). -/
def toc_bookmarks (outline : List OItem) (skip_bookmarks : ℕ) : List Bookmark :=
  ((extract_bookmarks outline 0).drop skip_bookmarks).mergeSort
    (fun a b => decide (a.page ≤ b.page))

/-- The fpdf state `render_toc_item` reads: page width, margins, cell
padding (`c_margin`), current font size, and the per-character width
function underlying `get_string_width` for the active style. -/
structure FPDFCfg where
  w : ℚ
  l_margin : ℚ
  r_margin : ℚ
  c_margin : ℚ
  font_size : ℚ
  cw : Char → ℚ

/-- `FPDF.get_string_width`: the sum of the widths of the string's
characters under the active style. -/
def get_string_width (cfg : FPDFCfg) (s : String) : ℚ :=
  (s.data.map cfg.cw).sum

/-- A string of `n` dot (fill) characters. -/
def dots (n : ℕ) : String := String.mk (List.replicate n '.')

/-- The dot-accumulation `while` loop of `render_toc_item` (lines 169-173),
with explicit fuel: starting from the accumulated string `in_between`,
keep appending `'.'` while
`get_string_width(in_between) + clearance_margin < in_between_space`.
`none` means the fuel ran out with the condition still true. -/
def dotWhile (cfg : FPDFCfg) (clearance_margin in_between_space : ℚ) :
    ℕ → String → Option String
  | 0, in_between =>
      if get_string_width cfg in_between + clearance_margin < in_between_space then
        none
      else some in_between
  | fuel + 1, in_between =>
      if get_string_width cfg in_between + clearance_margin < in_between_space then
        dotWhile cfg clearance_margin in_between_space fuel (in_between.push '.')
      else some in_between

/-- Fuel sufficient for `dotWhile` whenever the dot character has positive
width (proved below); the Python loop has no fuel and simply diverges when
the dot width is not positive and the space exceeds the clearance. -/
def dotFuel (cfg : FPDFCfg) (clearance_margin in_between_space : ℚ) : ℕ :=
  if 0 < cfg.cw '.' then
    (Int.ceil ((in_between_space - clearance_margin) / cfg.cw '.')).toNat + 1
  else 1

/-- Lines 155-166 of `render_toc_item`: compute the space left for the dot
leader, and on a negative result emit a line break (`toc.ln()`), reset `x`
to the indented left margin and recompute the space without the clearance
term.  Returns `(broke_line, y, current_x, in_between_space)`. -/
def fill_context (cfg : FPDFCfg)
    (indent page_label_length clearance_margin x_after_title y_after_title h : ℚ) :
    Bool × ℚ × ℚ × ℚ :=
  let current_x := x_after_title
  let in_between_space :=
    cfg.w - current_x - page_label_length - clearance_margin - cfg.r_margin
  if in_between_space < 0 then
    let y := y_after_title + h
    let x := cfg.l_margin + indent
    (true, y, x, cfg.w - x - page_label_length - cfg.r_margin)
  else
    (false, y_after_title, current_x, in_between_space)

/-- The observable effect of one `render_toc_item` call after the title has
been rendered: the link name, the label text and geometry of the three
spans (title link, optional dot-leader fill, right-aligned page label), and
the final cursor position. -/
structure RowOut where
  link_name : String
  item_page_number : String
  page_label_length : ℚ
  clearance_margin : ℚ
  broke_line : Bool
  current_x : ℚ
  in_between_space : ℚ
  in_between : String
  fill_rendered : Bool
  fill_text : String
  fill_x : ℚ
  fill_w : ℚ
  fill_link : String
  title_link : String
  label_x : ℚ
  label_w : ℚ
  label_right_aligned : Bool
  label_link : String
  final_x : ℚ
  final_y : ℚ
deriving DecidableEq, Repr

/-- Assemble the observable row once the dot loop has produced the
accumulated string `in_between` (lines 175-196): the fill span is rendered
only when the space is positive and the untrimmed string is longer than one
character; the rendered fill is `in_between[:-1]`; the label is drawn
right-aligned from the saved `current_x`; the cursor ends at the left
margin one line below. -/
def mkRow (cfg : FPDFCfg) (link_name item_page_number : String)
    (page_label_length clearance_margin : ℚ) (broke_line : Bool)
    (y1 current_x in_between_space h : ℚ) (in_between : String) : RowOut :=
  { link_name := link_name
    item_page_number := item_page_number
    page_label_length := page_label_length
    clearance_margin := clearance_margin
    broke_line := broke_line
    current_x := current_x
    in_between_space := in_between_space
    in_between := in_between
    fill_rendered :=
      decide (0 < in_between_space) && decide (1 < in_between.length)
    fill_text := String.mk in_between.data.dropLast
    fill_x := current_x
    fill_w := cfg.w - current_x - cfg.r_margin
    fill_link := "#" ++ link_name
    title_link := "#" ++ link_name
    label_x := current_x
    label_w := cfg.w - current_x - cfg.r_margin
    label_right_aligned := true
    label_link := "#" ++ link_name
    final_x := cfg.l_margin
    final_y := y1 + h }

/-- `CreateTOC.render_toc_item` (lines 124-196), after the title
`multi_cell`: the title render itself is external (fpdf text wrapping), so
the cursor position it leaves (`x_after_title`, `y_after_title`) is an
input.  Returns `none` exactly when the dot loop runs out of fuel. -/
def render_toc_item (cfg : FPDFCfg) (toc_pages : ℕ) (item : Bookmark)
    (x_after_title y_after_title : ℚ) : Option RowOut :=
  let item_page_number := toString (item.page + toc_pages + 1)
  let link_name := "dest" ++ toString item.page
  let level_indent : ℚ := 15 / 2
  let line_spacing : ℚ := 3 / 2
  let h := cfg.font_size * line_spacing
  let indent := (item.depth : ℚ) * level_indent
  let clearance_margin := cfg.c_margin * 2
  let page_label_length := get_string_width cfg item_page_number
  let fc := fill_context cfg indent page_label_length clearance_margin
    x_after_title y_after_title h
  let loopRes : Option String :=
    if 0 < fc.2.2.2 then
      dotWhile cfg clearance_margin fc.2.2.2
        (dotFuel cfg clearance_margin fc.2.2.2) ""
    else some ""
  loopRes.map
    (mkRow cfg link_name item_page_number page_label_length clearance_margin
      fc.1 fc.2.1 fc.2.2.1 fc.2.2.2 h)

/-- The page-number label each `render_toc_item` call prints for a bookmark
(line 129-131: `str(item["page"] + self.toc_pages + 1)`); `create_toc`
renders one row per bookmark, in list order. -/
def create_toc_labels (bookmarks : List Bookmark) (toc_pages : ℕ) : List String :=
  bookmarks.map fun b => toString (b.page + toc_pages + 1)

/-- Outcome of `CreateTOC.__init__`'s render-then-maybe-rerender logic:
the final `toc_pages` value, how many times `create_toc` ran, and the page
labels of the final render. -/
structure TOCResult where
  toc_pages : ℕ
  create_toc_calls : ℕ
  labels : List String
deriving DecidableEq, Repr

/-- Lines 71-77 of `CreateTOC.__init__`: assume the TOC fits on one page,
render, and if the measured page count differs re-render once with the
corrected count.  `page_count n` is the number of pages the (external)
renderer produces when the rows are generated assuming `n` TOC pages. -/
def createTOC_run (bookmarks : List Bookmark) (page_count : ℕ → ℕ) : TOCResult :=
  let toc_pages := 1
  let number_of_pages := page_count toc_pages
  if number_of_pages ≠ toc_pages then
    { toc_pages := number_of_pages
      create_toc_calls := 2
      labels := create_toc_labels bookmarks number_of_pages }
  else
    { toc_pages := toc_pages
      create_toc_calls := 1
      labels := create_toc_labels bookmarks toc_pages }

/-- The pypdf writer state `merge_pdfs` builds: pages in order, plus the
ordered list of `(name, page_number)` named destinations registered. -/
structure PdfWriter (α : Type) where
  pages : List α
  dests : List (String × ℕ)
deriving DecidableEq, Repr

/-- `writer.add_page(p)`. -/
def add_page {α : Type} (writer : PdfWriter α) (p : α) : PdfWriter α :=
  { writer with pages := writer.pages ++ [p] }

/-- `writer.append(reader)`: append every page of the reader. -/
def append_reader {α : Type} (writer : PdfWriter α) (ps : List α) : PdfWriter α :=
  { writer with pages := writer.pages ++ ps }

/-- `writer.add_named_destination(name, page_number)`. -/
def add_named_destination {α : Type} (writer : PdfWriter α) (name : String)
    (page_number : ℕ) : PdfWriter α :=
  { writer with dests := writer.dests ++ [(name, page_number)] }

/-- `CreateTOC.merge_pdfs` (lines 198-215): add each TOC page, append the
original document, then register `destN` → `N + toc_pages` for every
bookmark. -/
def merge_pdfs {α : Type} (toc_reader_pages original_pages : List α)
    (bookmarks : List Bookmark) (toc_pages : ℕ) : PdfWriter α :=
  let writer : PdfWriter α := { pages := [], dests := [] }
  let writer := toc_reader_pages.foldl add_page writer
  let writer := append_reader writer original_pages
  bookmarks.foldl
    (fun w bookmark =>
      add_named_destination w ("dest" ++ toString bookmark.page)
        (bookmark.page + toc_pages))
    writer

/-- The `fill_context` tuple `render_toc_item` computes for a bookmark:
indent, label width and clearance are filled in from the item and the
configuration. -/
def row_fc (cfg : FPDFCfg) (toc_pages : ℕ) (item : Bookmark)
    (x_after_title y_after_title : ℚ) : Bool × ℚ × ℚ × ℚ :=
  fill_context cfg ((item.depth : ℚ) * (15 / 2))
    (get_string_width cfg (toString (item.page + toc_pages + 1)))
    (cfg.c_margin * 2) x_after_title y_after_title (cfg.font_size * (3 / 2))

/-! ### Concrete instances used to exercise the theorems -/

/-- A small concrete configuration: page 11 units wide, unit margins, cell
padding 1/2 (so clearance 1), font size 2 (so line height 3), every
character 1 unit wide. -/
def cfg0 : FPDFCfg :=
  { w := 11, l_margin := 1, r_margin := 1, c_margin := 1 / 2, font_size := 2,
    cw := fun _ => 1 }

def item0 : Bookmark := { depth := 0, title := "Intro", page := 4 }

/-- Same destination page as `item0`, different depth and title. -/
def item1 : Bookmark := { depth := 2, title := "Other", page := 4 }

def outline0 : List OItem :=
  [OItem.dest "A" 0, OItem.sub [OItem.dest "B" 1], OItem.dest "C" 2]

/-- The row produced for `item0` under `cfg0` with the title ending at
`x = 5`: space `11 - 5 - 1 - 1 - 1 = 3`, dot loop exits after two dots,
one dot is actually drawn. -/
def row0 : RowOut :=
  { link_name := "dest4", item_page_number := "6", page_label_length := 1,
    clearance_margin := 1, broke_line := false, current_x := 5,
    in_between_space := 3, in_between := "..", fill_rendered := true,
    fill_text := ".", fill_x := 5, fill_w := 5, fill_link := "#dest4",
    title_link := "#dest4", label_x := 5, label_w := 5,
    label_right_aligned := true, label_link := "#dest4", final_x := 1,
    final_y := 3 }

/-- The row produced for `item0` under `cfg0` with the title ending at
`x = 10`: the first space computation is negative, so the row breaks to a
new line at `x = 1` and recomputes the space as `11 - 1 - 1 - 1 = 8`
(no clearance term). -/
def row1 : RowOut :=
  { link_name := "dest4", item_page_number := "6", page_label_length := 1,
    clearance_margin := 1, broke_line := true, current_x := 1,
    in_between_space := 8, in_between := ".......", fill_rendered := true,
    fill_text := "......", fill_x := 1, fill_w := 9, fill_link := "#dest4",
    title_link := "#dest4", label_x := 1, label_w := 9,
    label_right_aligned := true, label_link := "#dest4", final_x := 1,
    final_y := 6 }

/-! ### Width bookkeeping -/

theorem get_string_width_push (cfg : FPDFCfg) (s : String) (c : Char) :
    get_string_width cfg (s.push c) = get_string_width cfg s + cfg.cw c := by
  simp [get_string_width, String.data_push]

theorem get_string_width_empty (cfg : FPDFCfg) : get_string_width cfg "" = 0 := rfl

theorem dots_zero : dots 0 = "" := rfl

theorem dots_push (k : ℕ) : (dots k).push '.' = dots (k + 1) := by
  have : (dots k).data ++ ['.'] = List.replicate (k + 1) '.' :=
    (List.replicate_succ' (n := k) '.').symm
  apply String.ext
  simpa [String.data_push, dots] using this

theorem dots_length (n : ℕ) : (dots n).length = n := by
  simp [dots, String.length]

theorem dots_data (n : ℕ) : (dots n).data = List.replicate n '.' := rfl

theorem get_string_width_dots (cfg : FPDFCfg) (n : ℕ) :
    get_string_width cfg (dots n) = n * cfg.cw '.' := by
  induction n with
  | zero => simp [dots_zero, get_string_width_empty]
  | succ n ih =>
      rw [← dots_push, get_string_width_push, ih]
      push_cast
      ring

theorem dots_dropLast (n : ℕ) :
    String.mk (dots n).data.dropLast = dots (n - 1) := by
  rw [dots_data]
  simp [dots, List.dropLast_replicate]

/-! ### The dot-accumulation loop -/

/-- Any `some` outcome of the loop, started from a pure dot string, is a
pure dot string whose length is the least count at which the loop
condition fails (among counts reachable from the start). -/
theorem dotWhile_some (cfg : FPDFCfg) (c sp : ℚ) :
    ∀ (fuel k : ℕ) (t : String),
      dotWhile cfg c sp fuel (dots k) = some t →
      ∃ n, k ≤ n ∧ t = dots n ∧
        ¬ (get_string_width cfg (dots n) + c < sp) ∧
        ∀ m, k ≤ m → m < n → get_string_width cfg (dots m) + c < sp := by
  intro fuel
  induction fuel with
  | zero =>
      intro k t h
      rw [dotWhile] at h
      by_cases hc : get_string_width cfg (dots k) + c < sp
      · rw [if_pos hc] at h
        exact absurd h (by simp)
      · rw [if_neg hc] at h
        refine ⟨k, le_refl k, (Option.some_injective _ h).symm, hc, ?_⟩
        intro m hkm hmk
        exact absurd (lt_of_le_of_lt hkm hmk) (lt_irrefl k)
  | succ fuel ih =>
      intro k t h
      rw [dotWhile] at h
      by_cases hc : get_string_width cfg (dots k) + c < sp
      · rw [if_pos hc, dots_push] at h
        obtain ⟨n, hkn, ht, hstop, hlt⟩ := ih (k + 1) t h
        refine ⟨n, le_trans (Nat.le_succ k) hkn, ht, hstop, ?_⟩
        intro m hkm hmn
        rcases Nat.eq_or_lt_of_le hkm with hek | hsk
        · exact hek ▸ hc
        · exact hlt m hsk hmn
      · rw [if_neg hc] at h
        refine ⟨k, le_refl k, (Option.some_injective _ h).symm, hc, ?_⟩
        intro m hkm hmk
        exact absurd (lt_of_le_of_lt hkm hmk) (lt_irrefl k)

/-- With a positive dot width, fuel at least `(sp - c - width(start)) / d`
makes the loop exit (the width grows by `d` every iteration). -/
theorem dotWhile_isSome (cfg : FPDFCfg) (c sp : ℚ) (hd : 0 < cfg.cw '.') :
    ∀ (fuel : ℕ) (s : String),
      (sp - c - get_string_width cfg s) / cfg.cw '.' ≤ (fuel : ℚ) →
      (dotWhile cfg c sp fuel s).isSome = true := by
  intro fuel
  induction fuel with
  | zero =>
      intro s hle
      have h0 : sp - c - get_string_width cfg s ≤ 0 := by
        have := (div_le_iff₀ hd).mp (by simpa using hle)
        simpa using this
      rw [dotWhile, if_neg (by linarith)]
      rfl
  | succ fuel ih =>
      intro s hle
      rw [dotWhile]
      by_cases hc : get_string_width cfg s + c < sp
      · rw [if_pos hc]
        apply ih
        rw [get_string_width_push]
        have hrw : (sp - c - (get_string_width cfg s + cfg.cw '.')) / cfg.cw '.'
            = (sp - c - get_string_width cfg s) / cfg.cw '.' - 1 := by
          rw [show sp - c - (get_string_width cfg s + cfg.cw '.')
              = (sp - c - get_string_width cfg s) - cfg.cw '.' by ring,
            sub_div, div_self hd.ne']
        rw [hrw]
        have : ((fuel : ℚ) + 1 : ℚ) = ((fuel + 1 : ℕ) : ℚ) := by push_cast; ring
        linarith [hle, this]
      · rw [if_neg hc]
        rfl

/-- `dotFuel` is enough fuel to start the loop from the empty string. -/
theorem dotFuel_suffices (cfg : FPDFCfg) (c sp : ℚ) (hd : 0 < cfg.cw '.') :
    (sp - c - get_string_width cfg "") / cfg.cw '.' ≤ ((dotFuel cfg c sp : ℕ) : ℚ) := by
  rw [get_string_width_empty, dotFuel, if_pos hd, sub_zero]
  have h1 : (sp - c) / cfg.cw '.' ≤ ((Int.ceil ((sp - c) / cfg.cw '.') : ℤ) : ℚ) :=
    Int.le_ceil _
  have h2 : ((Int.ceil ((sp - c) / cfg.cw '.') : ℤ) : ℚ)
      ≤ (((Int.ceil ((sp - c) / cfg.cw '.')).toNat : ℕ) : ℚ) := by
    exact_mod_cast Int.self_le_toNat _
  push_cast
  push_cast at h2
  linarith

/-- With a positive dot width the fueled loop run by `render_toc_item`
returns a result: the Python `while` loop terminates. -/
theorem dotWhile_dotFuel_isSome (cfg : FPDFCfg) (c sp : ℚ) (hd : 0 < cfg.cw '.') :
    (dotWhile cfg c sp (dotFuel cfg c sp) "").isSome = true :=
  dotWhile_isSome cfg c sp hd (dotFuel cfg c sp) "" (dotFuel_suffices cfg c sp hd)

/-- The loop's value is pinned down arithmetically: if the loop condition
holds strictly below `n` and fails at `n`, the loop returns `n` dots. -/
theorem dotWhile_value (cfg : FPDFCfg) (c sp : ℚ) (hd : 0 < cfg.cw '.') (n : ℕ)
    (hstop : ¬ ((n : ℚ) * cfg.cw '.' + c < sp))
    (hcont : ∀ m : ℕ, m < n → (m : ℚ) * cfg.cw '.' + c < sp) :
    dotWhile cfg c sp (dotFuel cfg c sp) "" = some (dots n) := by
  have hsome := dotWhile_dotFuel_isSome cfg c sp hd
  obtain ⟨t, ht⟩ := Option.isSome_iff_exists.mp hsome
  have ht' := ht
  rw [show ("" : String) = dots 0 from rfl] at ht'
  obtain ⟨m, _, htm, hstopm, hltm⟩ :=
    dotWhile_some cfg c sp (dotFuel cfg c sp) 0 t ht'
  rw [get_string_width_dots] at hstopm
  have hmn : m = n := by
    rcases Nat.lt_trichotomy m n with hlt | heq | hgt
    · exact absurd (hcont m hlt) hstopm
    · exact heq
    · have := hltm n (Nat.zero_le n) hgt
      rw [get_string_width_dots] at this
      exact absurd this hstop
  rw [ht, htm, hmn]

/-! ### The branch computing the dot-leader space -/

/-- Case analysis of `fill_context`: a negative first computation forces
the line break and the clearance-free recomputation; otherwise nothing
changes. -/
theorem fill_context_spec (cfg : FPDFCfg) (indent p c xA y0 h : ℚ) :
    (cfg.w - xA - p - c - cfg.r_margin < 0 →
      fill_context cfg indent p c xA y0 h
        = (true, y0 + h, cfg.l_margin + indent,
            cfg.w - (cfg.l_margin + indent) - p - cfg.r_margin)) ∧
    (0 ≤ cfg.w - xA - p - c - cfg.r_margin →
      fill_context cfg indent p c xA y0 h
        = (false, y0, xA, cfg.w - xA - p - c - cfg.r_margin)) := by
  constructor
  · intro hh
    simp only [fill_context]
    rw [if_pos hh]
  · intro hh
    simp only [fill_context]
    rw [if_neg (not_lt.mpr hh)]

/-- Destructuring a successful `render_toc_item` call: the row is `mkRow`
applied to the quantities of the source, with the accumulated dot string
coming from the loop (or empty when the space is not positive). -/
theorem render_toc_item_some (cfg : FPDFCfg) (tp : ℕ) (item : Bookmark)
    (xA y0 : ℚ) (r : RowOut)
    (h : render_toc_item cfg tp item xA y0 = some r) :
    ∃ s : String,
      (if 0 < (row_fc cfg tp item xA y0).2.2.2 then
          dotWhile cfg (cfg.c_margin * 2) (row_fc cfg tp item xA y0).2.2.2
            (dotFuel cfg (cfg.c_margin * 2) (row_fc cfg tp item xA y0).2.2.2) ""
            = some s
        else s = "") ∧
      r = mkRow cfg ("dest" ++ toString item.page) (toString (item.page + tp + 1))
        (get_string_width cfg (toString (item.page + tp + 1))) (cfg.c_margin * 2)
        (row_fc cfg tp item xA y0).1 (row_fc cfg tp item xA y0).2.1
        (row_fc cfg tp item xA y0).2.2.1 (row_fc cfg tp item xA y0).2.2.2
        (cfg.font_size * (3 / 2)) s := by
  simp only [render_toc_item] at h
  obtain ⟨s, hs, hr⟩ := Option.map_eq_some'.mp h
  refine ⟨s, ?_, hr.symm⟩
  simp only [row_fc]
  split
  · rename_i hpos
    rwa [if_pos hpos] at hs
  · rename_i hneg
    rw [if_neg hneg] at hs
    exact (Option.some_injective _ hs).symm

/-! ### Writer bookkeeping -/

theorem foldl_add_page {α : Type} (ps : List α) :
    ∀ w : PdfWriter α,
      ps.foldl add_page w = { w with pages := w.pages ++ ps } := by
  induction ps with
  | nil => intro w; simp
  | cons p ps ih =>
      intro w
      rw [List.foldl_cons, ih]
      simp [add_page, List.append_assoc]

theorem foldl_add_named (bms : List Bookmark) (tp : ℕ) :
    ∀ {α : Type} (w : PdfWriter α),
      bms.foldl
          (fun w b =>
            add_named_destination w ("dest" ++ toString b.page) (b.page + tp)) w
        = { w with
            dests := w.dests
              ++ bms.map (fun b => ("dest" ++ toString b.page, b.page + tp)) } := by
  induction bms with
  | nil => intro α w; simp
  | cons b bms ih =>
      intro α w
      rw [List.foldl_cons, ih]
      simp [add_named_destination, List.append_assoc]

/-- What `merge_pdfs` builds: the TOC pages followed by the original
pages, and one named destination per bookmark, in bookmark order. -/
theorem merge_pdfs_spec {α : Type} (tocPs origPs : List α)
    (bms : List Bookmark) (tp : ℕ) :
    merge_pdfs tocPs origPs bms tp
      = { pages := tocPs ++ origPs,
          dests := bms.map (fun b => ("dest" ++ toString b.page, b.page + tp)) } := by
  simp [merge_pdfs, foldl_add_page, append_reader, foldl_add_named]

/-! ### Evaluating the model on the concrete instances -/

theorem cfg0_dot_width : (0 : ℚ) < cfg0.cw '.' := by norm_num [cfg0]

theorem cfg0_label : toString (item0.page + 1 + 1) = "6" := by decide

theorem cfg0_w6 : get_string_width cfg0 "6" = 1 := by
  norm_num [get_string_width, cfg0, show ("6" : String).data = ['6'] from rfl]

theorem cfg0_clearance : cfg0.c_margin * 2 = 1 := by norm_num [cfg0]

theorem render_cfg0_five : render_toc_item cfg0 1 item0 5 0 = some row0 := by
  have hfc : fill_context cfg0 ((item0.depth : ℚ) * (15 / 2))
      (get_string_width cfg0 (toString (item0.page + 1 + 1)))
      (cfg0.c_margin * 2) 5 0 (cfg0.font_size * (3 / 2))
      = (false, 0, 5, 3) := by
    rw [cfg0_label, cfg0_w6]
    norm_num [fill_context, cfg0, item0]
  have hloop : dotWhile cfg0 1 3 (dotFuel cfg0 1 3) "" = some (dots 2) := by
    apply dotWhile_value cfg0 1 3 cfg0_dot_width 2
    · norm_num [cfg0]
    · intro m hm
      have hm' : (m : ℚ) < 2 := by exact_mod_cast hm
      norm_num [cfg0]
      linarith
  simp only [render_toc_item, hfc]
  rw [cfg0_clearance, if_pos (by norm_num : (0 : ℚ) < 3), hloop]
  rw [Option.map_some']
  refine congrArg some ?_
  simp only [mkRow, row0]
  congr 1 <;> first
    | rfl
    | (rw [cfg0_label]; exact cfg0_w6)
    | norm_num [cfg0]

/-- `item1` differs from `item0` only in depth and title; with the title
ending at `x = 5` no line break occurs, so the indent is never used and
the resulting row is identical. -/
theorem render_cfg0_five_item1 : render_toc_item cfg0 1 item1 5 0 = some row0 := by
  have hfc : fill_context cfg0 ((item1.depth : ℚ) * (15 / 2))
      (get_string_width cfg0 (toString (item1.page + 1 + 1)))
      (cfg0.c_margin * 2) 5 0 (cfg0.font_size * (3 / 2))
      = (false, 0, 5, 3) := by
    rw [show toString (item1.page + 1 + 1) = "6" from by decide, cfg0_w6]
    norm_num [fill_context, cfg0, item1]
  have hloop : dotWhile cfg0 1 3 (dotFuel cfg0 1 3) "" = some (dots 2) := by
    apply dotWhile_value cfg0 1 3 cfg0_dot_width 2
    · norm_num [cfg0]
    · intro m hm
      have hm' : (m : ℚ) < 2 := by exact_mod_cast hm
      norm_num [cfg0]
      linarith
  simp only [render_toc_item, hfc]
  rw [cfg0_clearance, if_pos (by norm_num : (0 : ℚ) < 3), hloop]
  rw [Option.map_some']
  refine congrArg some ?_
  simp only [mkRow, row0]
  congr 1 <;> first
    | rfl
    | (rw [show toString (item1.page + 1 + 1) = "6" from by decide]; exact cfg0_w6)
    | norm_num [cfg0]

theorem render_cfg0_ten : render_toc_item cfg0 1 item0 10 0 = some row1 := by
  have hfc : fill_context cfg0 ((item0.depth : ℚ) * (15 / 2))
      (get_string_width cfg0 (toString (item0.page + 1 + 1)))
      (cfg0.c_margin * 2) 10 0 (cfg0.font_size * (3 / 2))
      = (true, 3, 1, 8) := by
    rw [cfg0_label, cfg0_w6]
    norm_num [fill_context, cfg0, item0]
  have hloop : dotWhile cfg0 1 8 (dotFuel cfg0 1 8) "" = some (dots 7) := by
    apply dotWhile_value cfg0 1 8 cfg0_dot_width 7
    · norm_num [cfg0]
    · intro m hm
      have hm' : (m : ℚ) < 7 := by exact_mod_cast hm
      norm_num [cfg0]
      linarith
  simp only [render_toc_item, hfc]
  rw [cfg0_clearance, if_pos (by norm_num : (0 : ℚ) < 8), hloop]
  rw [Option.map_some']
  refine congrArg some ?_
  simp only [mkRow, row1]
  congr 1 <;> first
    | rfl
    | (rw [cfg0_label]; exact cfg0_w6)
    | norm_num [cfg0]

/-! ### Claims -/

/-- C1.  Greedy fill-fit invariant: when a fill span is actually drawn
(positive space, untrimmed accumulated string longer than one character),
the rendered string — the accumulated string with its last character
trimmed — measures, with the clearance added, strictly below the space,
while appending one more fill character reaches or exceeds it; and the
fill span is drawn exactly when the untrimmed accumulated string has
length greater than one (with positive space). -/
theorem c1_greedy_fill_fit (cfg : FPDFCfg) (tp : ℕ) (item : Bookmark)
    (xA y0 : ℚ) (r : RowOut)
    (h : render_toc_item cfg tp item xA y0 = some r) :
    (r.fill_rendered = true ↔ 0 < r.in_between_space ∧ 1 < r.in_between.length) ∧
    (1 < r.in_between.length →
      get_string_width cfg r.fill_text + r.clearance_margin < r.in_between_space ∧
      r.in_between_space
        ≤ get_string_width cfg (r.fill_text.push '.') + r.clearance_margin ∧
      r.fill_text.length + 1 = r.in_between.length) := by
  obtain ⟨s, hloop, hr⟩ := render_toc_item_some cfg tp item xA y0 r h
  subst hr
  simp only [mkRow]
  constructor
  · simp
  · intro hlen
    by_cases hsp : 0 < (row_fc cfg tp item xA y0).2.2.2
    · rw [if_pos hsp] at hloop
      rw [show ("" : String) = dots 0 from rfl] at hloop
      obtain ⟨n, -, hsn, hstop, hlt⟩ :=
        dotWhile_some cfg (cfg.c_margin * 2) _ _ 0 s hloop
      subst hsn
      rw [dots_length] at hlen
      rw [get_string_width_dots] at hstop
      have hcont := hlt (n - 1) (Nat.zero_le _) (by omega)
      rw [get_string_width_dots] at hcont
      refine ⟨?_, ?_, ?_⟩
      · rw [dots_dropLast, get_string_width_dots]
        exact hcont
      · rw [dots_dropLast, dots_push, show n - 1 + 1 = n from by omega,
          get_string_width_dots]
        exact not_lt.mp hstop
      · rw [dots_dropLast, dots_length, dots_length]
        omega
    · rw [if_neg hsp] at hloop
      subst hloop
      exact absurd hlen (by decide)

/-- C1 witness: the concrete row `row0` (space 3, two accumulated dots,
one rendered): `1 + 1 < 3` and `3 ≤ 2 + 1`. -/
theorem c1_greedy_fill_fit_witness :
    (row0.fill_rendered = true ↔ 0 < row0.in_between_space ∧ 1 < row0.in_between.length) ∧
    get_string_width cfg0 row0.fill_text + row0.clearance_margin < row0.in_between_space ∧
    row0.in_between_space
      ≤ get_string_width cfg0 (row0.fill_text.push '.') + row0.clearance_margin := by
  have h := c1_greedy_fill_fit cfg0 1 item0 5 0 row0 render_cfg0_five
  have h2 := h.2 (by decide)
  exact ⟨h.1, h2.1, h2.2.1⟩

/-- C2.  When the space computed after the title render (with the
clearance subtracted) is negative, the row breaks to a new line, `x`
resets to `left_margin + depth * 7.5`, and the space is recomputed without
the clearance term; when it is zero or positive, no break happens. -/
theorem c2_retry_without_clearance (cfg : FPDFCfg) (tp : ℕ) (item : Bookmark)
    (xA y0 : ℚ) (r : RowOut)
    (h : render_toc_item cfg tp item xA y0 = some r) :
    (cfg.w - xA - get_string_width cfg (toString (item.page + tp + 1))
        - cfg.c_margin * 2 - cfg.r_margin < 0 →
      r.broke_line = true ∧
      r.current_x = cfg.l_margin + (item.depth : ℚ) * (15 / 2) ∧
      r.in_between_space
        = cfg.w - r.current_x
          - get_string_width cfg (toString (item.page + tp + 1)) - cfg.r_margin ∧
      r.final_y = y0 + cfg.font_size * (3 / 2) + cfg.font_size * (3 / 2)) ∧
    (0 ≤ cfg.w - xA - get_string_width cfg (toString (item.page + tp + 1))
        - cfg.c_margin * 2 - cfg.r_margin →
      r.broke_line = false ∧ r.current_x = xA ∧
      r.in_between_space
        = cfg.w - xA - get_string_width cfg (toString (item.page + tp + 1))
          - cfg.c_margin * 2 - cfg.r_margin) := by
  obtain ⟨s, -, hr⟩ := render_toc_item_some cfg tp item xA y0 r h
  subst hr
  have hspec := fill_context_spec cfg ((item.depth : ℚ) * (15 / 2))
    (get_string_width cfg (toString (item.page + tp + 1))) (cfg.c_margin * 2)
    xA y0 (cfg.font_size * (3 / 2))
  constructor
  · intro hneg
    have heq := hspec.1 hneg
    simp [mkRow, row_fc, heq]
  · intro hpos
    have heq := hspec.2 hpos
    simp [mkRow, row_fc, heq]

/-- C2 witness: the concrete break-path row `row1` (title ending at
`x = 10`, space `-2`): the row breaks, `x` resets to `1`, and the space is
recomputed as `11 - 1 - 1 - 1 = 8` with no clearance term. -/
theorem c2_retry_without_clearance_witness :
    row1.broke_line = true ∧
    row1.current_x = cfg0.l_margin + (item0.depth : ℚ) * (15 / 2) ∧
    row1.in_between_space
      = cfg0.w - row1.current_x
        - get_string_width cfg0 (toString (item0.page + 1 + 1)) - cfg0.r_margin := by
  have h := (c2_retry_without_clearance cfg0 1 item0 10 0 row1 render_cfg0_ten).1
    (by rw [cfg0_label, cfg0_w6]; norm_num [cfg0])
  exact ⟨h.1, h.2.1, h.2.2.1⟩

/-- C6.  The fill span is drawn only when the (possibly recomputed) space
is strictly positive and the accumulated string is longer than one
character; the rendered fill is then non-empty with strictly positive
measured width — also on the forced-line-break path. -/
theorem c6_no_degenerate_fill (cfg : FPDFCfg) (tp : ℕ) (item : Bookmark)
    (xA y0 : ℚ) (r : RowOut) (hd : 0 < cfg.cw '.')
    (h : render_toc_item cfg tp item xA y0 = some r)
    (hfr : r.fill_rendered = true) :
    0 < r.in_between_space ∧ 1 < r.in_between.length ∧
    0 < r.fill_text.length ∧ 0 < get_string_width cfg r.fill_text := by
  obtain ⟨s, hloop, hr⟩ := render_toc_item_some cfg tp item xA y0 r h
  subst hr
  simp only [mkRow] at hfr ⊢
  rw [Bool.and_eq_true, decide_eq_true_eq, decide_eq_true_eq] at hfr
  obtain ⟨hsp, hlen⟩ := hfr
  rw [if_pos hsp] at hloop
  rw [show ("" : String) = dots 0 from rfl] at hloop
  obtain ⟨n, -, hsn, -, -⟩ := dotWhile_some cfg (cfg.c_margin * 2) _ _ 0 s hloop
  subst hsn
  rw [dots_length] at hlen
  refine ⟨hsp, by rw [dots_length]; exact hlen, ?_, ?_⟩
  · rw [dots_dropLast, dots_length]
    omega
  · rw [dots_dropLast, get_string_width_dots]
    have hn1 : (0 : ℚ) < ((n - 1 : ℕ) : ℚ) := by
      exact_mod_cast Nat.pos_of_ne_zero (by omega)
    exact mul_pos hn1 hd

/-- C6 witness: at `row1` (the break path) the drawn fill is six dots of
width 6 in a space of 8. -/
theorem c6_no_degenerate_fill_witness :
    0 < row1.in_between_space ∧ 1 < row1.in_between.length ∧
    0 < row1.fill_text.length ∧ 0 < get_string_width cfg0 row1.fill_text :=
  c6_no_degenerate_fill cfg0 1 item0 10 0 row1 cfg0_dot_width render_cfg0_ten
    (by decide)

/-- C10.  The dot-accumulation loop terminates on every call when the fill
character has strictly positive measured width: `render_toc_item` always
returns a row, and the fueled loop run from the empty string always exits
within `dotFuel` steps. -/
theorem c10_dot_loop_terminates (cfg : FPDFCfg) (tp : ℕ) (item : Bookmark)
    (xA y0 : ℚ) (hd : 0 < cfg.cw '.') :
    (render_toc_item cfg tp item xA y0).isSome = true ∧
    ∀ c sp : ℚ, (dotWhile cfg c sp (dotFuel cfg c sp) "").isSome = true := by
  refine ⟨?_, fun c sp => dotWhile_dotFuel_isSome cfg c sp hd⟩
  simp only [render_toc_item, Option.isSome_map']
  split
  · exact dotWhile_dotFuel_isSome cfg _ _ hd
  · rfl

/-- C10 witness: the concrete configuration has dot width 1 and its
render call returns a row. -/
theorem c10_dot_loop_terminates_witness :
    (render_toc_item cfg0 1 item0 5 0).isSome = true :=
  (c10_dot_loop_terminates cfg0 1 item0 5 0 cfg0_dot_width).1

/-- C7 counterexample.  With the title ending at `x = 10` the row takes
the forced-line-break path and the page label is rendered from `x = 1`
(the indented line start), not from the title's ending `x = 10`: the
claim's "resets x to the title's ending x", read over every row, fails
here. -/
theorem c7_counterexample_break_path :
    (render_toc_item cfg0 1 item0 10 0).map RowOut.label_x = some 1 ∧
    (1 : ℚ) ≠ 10 := by
  constructor
  · rw [render_cfg0_ten, Option.map_some']
    rfl
  · norm_num

/-- C7 as amended: the page label is rendered right-aligned in the width
from the saved `current_x` to the right margin — the title's ending `x`
when no line break was forced, the indented line start otherwise — and the
cursor then moves to the left margin one line height below the line the
label was drawn on. -/
theorem c7_label_from_saved_x (cfg : FPDFCfg) (tp : ℕ) (item : Bookmark)
    (xA y0 : ℚ) (r : RowOut)
    (h : render_toc_item cfg tp item xA y0 = some r) :
    r.label_x = r.current_x ∧
    r.label_w = cfg.w - r.current_x - cfg.r_margin ∧
    r.label_right_aligned = true ∧
    r.final_x = cfg.l_margin ∧
    (r.broke_line = false →
      r.current_x = xA ∧ r.final_y = y0 + cfg.font_size * (3 / 2)) ∧
    (r.broke_line = true →
      r.current_x = cfg.l_margin + (item.depth : ℚ) * (15 / 2) ∧
      r.final_y = y0 + cfg.font_size * (3 / 2) + cfg.font_size * (3 / 2)) := by
  obtain ⟨s, -, hr⟩ := render_toc_item_some cfg tp item xA y0 r h
  subst hr
  rcases lt_or_le (cfg.w - xA - get_string_width cfg (toString (item.page + tp + 1))
      - cfg.c_margin * 2 - cfg.r_margin) 0 with hneg | hpos
  · have heq := (fill_context_spec cfg ((item.depth : ℚ) * (15 / 2))
      (get_string_width cfg (toString (item.page + tp + 1))) (cfg.c_margin * 2)
      xA y0 (cfg.font_size * (3 / 2))).1 hneg
    simp [mkRow, row_fc, heq]
  · have heq := (fill_context_spec cfg ((item.depth : ℚ) * (15 / 2))
      (get_string_width cfg (toString (item.page + tp + 1))) (cfg.c_margin * 2)
      xA y0 (cfg.font_size * (3 / 2))).2 hpos
    simp [mkRow, row_fc, heq]

/-- C7 (amended) witness: on the break-path row the label is drawn from
the indented line start and the cursor ends at the left margin. -/
theorem c7_label_from_saved_x_witness :
    row1.label_x = row1.current_x ∧
    row1.current_x = cfg0.l_margin + (item0.depth : ℚ) * (15 / 2) ∧
    row1.final_x = cfg0.l_margin := by
  have h := c7_label_from_saved_x cfg0 1 item0 10 0 row1 render_cfg0_ten
  exact ⟨h.1, (h.2.2.2.2.2 (by decide)).1, h.2.2.2.1⟩

/-- C3.  The constructor renders assuming one TOC page; if the measured
count differs it re-renders exactly once with the corrected count
(`create_toc` runs at most twice), the final `toc_pages` is the measured
count of the first render, and every row of the final render prints
`str(page + toc_pages + 1)` with the corrected `toc_pages`. -/
theorem c3_two_pass_rerender (bookmarks : List Bookmark) (page_count : ℕ → ℕ) :
    (createTOC_run bookmarks page_count).create_toc_calls ≤ 2 ∧
    (page_count 1 ≠ 1 →
      (createTOC_run bookmarks page_count).create_toc_calls = 2) ∧
    (createTOC_run bookmarks page_count).toc_pages = page_count 1 ∧
    (createTOC_run bookmarks page_count).labels
      = bookmarks.map (fun b =>
          toString (b.page + (createTOC_run bookmarks page_count).toc_pages + 1)) ∧
    (∀ (cfg : FPDFCfg) (item : Bookmark) (xA y0 : ℚ) (r : RowOut),
      render_toc_item cfg (createTOC_run bookmarks page_count).toc_pages item xA y0
        = some r →
      r.item_page_number
        = toString (item.page + (createTOC_run bookmarks page_count).toc_pages + 1)) := by
  have hlabel : ∀ (cfg : FPDFCfg) (tp : ℕ) (item : Bookmark) (xA y0 : ℚ) (r : RowOut),
      render_toc_item cfg tp item xA y0 = some r →
      r.item_page_number = toString (item.page + tp + 1) := by
    intro cfg tp item xA y0 r h
    obtain ⟨s, -, hr⟩ := render_toc_item_some cfg tp item xA y0 r h
    subst hr
    rfl
  by_cases h1 : page_count 1 = 1
  · have hrun : createTOC_run bookmarks page_count
        = { toc_pages := 1, create_toc_calls := 1,
            labels := create_toc_labels bookmarks 1 } := by
      simp [createTOC_run, h1]
    rw [hrun]
    exact ⟨by norm_num, fun hne => absurd h1 hne, h1.symm, rfl,
      fun cfg item xA y0 r h => hlabel cfg 1 item xA y0 r h⟩
  · have hrun : createTOC_run bookmarks page_count
        = { toc_pages := page_count 1, create_toc_calls := 2,
            labels := create_toc_labels bookmarks (page_count 1) } := by
      simp [createTOC_run, h1]
    rw [hrun]
    exact ⟨by norm_num, fun _ => rfl, rfl, rfl,
      fun cfg item xA y0 r h => hlabel cfg (page_count 1) item xA y0 r h⟩

/-- C3 witness: a renderer reporting 3 pages triggers the single
re-render and the corrected count 3. -/
theorem c3_two_pass_rerender_witness :
    (createTOC_run [item0] (fun _ => 3)).create_toc_calls = 2 ∧
    (createTOC_run [item0] (fun _ => 3)).toc_pages = 3 := by
  have h := c3_two_pass_rerender [item0] (fun _ => 3)
  exact ⟨h.2.1 (by decide), h.2.2.1⟩

/-- C4.  The merged output is the TOC pages followed by every original
page in order; one named destination `destN ↦ N + toc_pages` is registered
per bookmark; and all three spans of a bookmark's TOC row link to
`#destN`, the fpdf reference to that named destination. -/
theorem c4_merge_structure (α : Type) (toc_reader_pages original_pages : List α)
    (bookmarks : List Bookmark) (toc_pages : ℕ) :
    (merge_pdfs toc_reader_pages original_pages bookmarks toc_pages).pages
      = toc_reader_pages ++ original_pages ∧
    (merge_pdfs toc_reader_pages original_pages bookmarks toc_pages).dests
      = bookmarks.map (fun b => ("dest" ++ toString b.page, b.page + toc_pages)) ∧
    (∀ (cfg : FPDFCfg) (item : Bookmark) (xA y0 : ℚ) (r : RowOut),
      render_toc_item cfg toc_pages item xA y0 = some r →
      r.title_link = "#" ++ ("dest" ++ toString item.page) ∧
      r.fill_link = "#" ++ ("dest" ++ toString item.page) ∧
      r.label_link = "#" ++ ("dest" ++ toString item.page)) := by
  refine ⟨?_, ?_, ?_⟩
  · rw [merge_pdfs_spec]
  · rw [merge_pdfs_spec]
  · intro cfg item xA y0 r h
    obtain ⟨s, -, hr⟩ := render_toc_item_some cfg toc_pages item xA y0 r h
    subst hr
    exact ⟨rfl, rfl, rfl⟩

/-- C4 witness: one TOC page, two original pages, one bookmark on page 4
with one TOC page in front: destination `dest4 ↦ 5`, row spans linked to
`#dest4`. -/
theorem c4_merge_structure_witness :
    (merge_pdfs [10] [20, 21] [item0] 1).pages = [10, 20, 21] ∧
    (merge_pdfs [10] [20, 21] [item0] 1).dests = [("dest4", 5)] ∧
    row0.title_link = "#" ++ ("dest" ++ toString item0.page) := by
  have h := c4_merge_structure ℕ [10] [20, 21] [item0] 1
  refine ⟨?_, ?_, (h.2.2 cfg0 item0 5 0 row0 render_cfg0_five).1⟩
  · rw [h.1]
    rfl
  · rw [h.2.1]
    decide

/-- C5.  When the flattened outline is already sorted by ascending page,
the preprocessing drops exactly `skip_bookmarks` leading entries,
preserves every remaining record, and the list held at rendering time is
sorted by ascending page. -/
theorem c5_preprocessing_sorted (outline : List OItem) (skip_bookmarks : ℕ)
    (hsorted : (extract_bookmarks outline 0).Pairwise (fun a b => a.page ≤ b.page)) :
    toc_bookmarks outline skip_bookmarks
      = (extract_bookmarks outline 0).drop skip_bookmarks ∧
    (toc_bookmarks outline skip_bookmarks).Pairwise (fun a b => a.page ≤ b.page) ∧
    (toc_bookmarks outline skip_bookmarks).length
      = (extract_bookmarks outline 0).length - skip_bookmarks := by
  have hdrop : ((extract_bookmarks outline 0).drop skip_bookmarks).Pairwise
      (fun a b => a.page ≤ b.page) :=
    List.Pairwise.sublist (List.drop_sublist _ _) hsorted
  have hb : ((extract_bookmarks outline 0).drop skip_bookmarks).Pairwise
      (fun a b => decide (a.page ≤ b.page) = true) :=
    hdrop.imp (fun hab => by simpa using hab)
  have hms : ((extract_bookmarks outline 0).drop skip_bookmarks).mergeSort
      (fun a b => decide (a.page ≤ b.page))
      = (extract_bookmarks outline 0).drop skip_bookmarks :=
    List.mergeSort_of_sorted hb
  refine ⟨?_, ?_, ?_⟩
  · rw [toc_bookmarks, hms]
  · rw [toc_bookmarks, hms]
    exact hdrop
  · rw [toc_bookmarks, hms, List.length_drop]

/-- C5 witness: a three-entry outline (one nested) flattens sorted;
skipping one entry keeps the last two records unchanged. -/
theorem c5_preprocessing_sorted_witness :
    toc_bookmarks outline0 1 = (extract_bookmarks outline0 0).drop 1 := by
  have hx : extract_bookmarks outline0 0
      = [{ depth := 0, title := "A", page := 0 },
         { depth := 1, title := "B", page := 1 },
         { depth := 0, title := "C", page := 2 }] := by
    simp [outline0, extract_bookmarks]
  exact (c5_preprocessing_sorted outline0 1 (by rw [hx]; decide)).1

/-- C8.  The TOC build is a deterministic function of the extracted
bookmark list and `toc_pages`: equal inputs give equal row labels, equal
link names, equal render results and equal merged writers. -/
theorem c8_deterministic_rerun (bms₁ bms₂ : List Bookmark) (tp₁ tp₂ : ℕ)
    (hb : bms₁ = bms₂) (ht : tp₁ = tp₂) :
    create_toc_labels bms₁ tp₁ = create_toc_labels bms₂ tp₂ ∧
    bms₁.map (fun b => "dest" ++ toString b.page)
      = bms₂.map (fun b => "dest" ++ toString b.page) ∧
    (∀ (cfg : FPDFCfg) (item : Bookmark) (xA y0 : ℚ),
      render_toc_item cfg tp₁ item xA y0 = render_toc_item cfg tp₂ item xA y0) ∧
    (∀ (α : Type) (tocPs origPs : List α),
      merge_pdfs tocPs origPs bms₁ tp₁ = merge_pdfs tocPs origPs bms₂ tp₂) := by
  subst hb
  subst ht
  exact ⟨rfl, rfl, fun _ _ _ _ => rfl, fun _ _ _ => rfl⟩

/-- C8 witness at a concrete bookmark list and page count. -/
theorem c8_deterministic_rerun_witness :
    create_toc_labels [item0] 1 = create_toc_labels [item0] 1 ∧
    render_toc_item cfg0 1 item0 5 0 = render_toc_item cfg0 1 item0 5 0 := by
  have h := c8_deterministic_rerun [item0] [item0] 1 1 rfl rfl
  exact ⟨h.1, h.2.2.1 cfg0 item0 5 0⟩

/-- C9.  The link name of every span of a row and the destination name
registered at merge time are both `dest` followed by the zero-based page
index — a function of the page alone, so bookmarks sharing a page share
one name — and `add_named_destination` runs once per bookmark even when
the names repeat. -/
theorem c9_dest_names_by_page (α : Type) (toc_reader_pages original_pages : List α)
    (bookmarks : List Bookmark) (toc_pages : ℕ) :
    (merge_pdfs toc_reader_pages original_pages bookmarks toc_pages).dests.length
      = bookmarks.length ∧
    (merge_pdfs toc_reader_pages original_pages bookmarks toc_pages).dests
      = bookmarks.map (fun b => ("dest" ++ toString b.page, b.page + toc_pages)) ∧
    (∀ (cfg : FPDFCfg) (tp : ℕ) (item : Bookmark) (xA y0 : ℚ) (r : RowOut),
      render_toc_item cfg tp item xA y0 = some r →
      r.link_name = "dest" ++ toString item.page ∧
      r.title_link = "#" ++ r.link_name ∧
      r.fill_link = "#" ++ r.link_name ∧
      r.label_link = "#" ++ r.link_name) ∧
    (∀ (cfg : FPDFCfg) (tp : ℕ) (b₁ b₂ : Bookmark) (x₁ y₁ x₂ y₂ : ℚ)
        (r₁ r₂ : RowOut),
      render_toc_item cfg tp b₁ x₁ y₁ = some r₁ →
      render_toc_item cfg tp b₂ x₂ y₂ = some r₂ →
      b₁.page = b₂.page → r₁.link_name = r₂.link_name) := by
  refine ⟨?_, ?_, ?_, ?_⟩
  · rw [merge_pdfs_spec]
    exact List.length_map _ _
  · rw [merge_pdfs_spec]
  · intro cfg tp item xA y0 r h
    obtain ⟨s, -, hr⟩ := render_toc_item_some cfg tp item xA y0 r h
    subst hr
    exact ⟨rfl, rfl, rfl, rfl⟩
  · intro cfg tp b₁ b₂ x₁ y₁ x₂ y₂ r₁ r₂ h₁ h₂ hpage
    obtain ⟨s₁, -, hr₁⟩ := render_toc_item_some cfg tp b₁ x₁ y₁ r₁ h₁
    obtain ⟨s₂, -, hr₂⟩ := render_toc_item_some cfg tp b₂ x₂ y₂ r₂ h₂
    subst hr₁
    subst hr₂
    simp only [mkRow]
    rw [hpage]

/-- C9 witness: `item0` and `item1` share page 4 but differ in depth and
title; their rows carry the same link name `dest4`, and the merge
registers two destinations for the two bookmarks. -/
theorem c9_dest_names_by_page_witness :
    (merge_pdfs [10] [20, 21] [item0, item1] 1).dests.length = 2 ∧
    row0.link_name = "dest" ++ toString item0.page ∧
    row0.link_name = row0.link_name := by
  have h := c9_dest_names_by_page ℕ [10] [20, 21] [item0, item1] 1
  exact ⟨h.1, (h.2.2.1 cfg0 1 item0 5 0 row0 render_cfg0_five).1,
    h.2.2.2 cfg0 1 item0 item1 5 0 5 0 row0 row0 render_cfg0_five
      render_cfg0_five_item1 rfl⟩
